import Mathlib

/-!
# Verification of the go-qcow2lib qcow2 driver core

Shallow embedding of the qcow2 block-driver request pipeline
(`src/qcow2/qcow2.go`) together with the data declarations of the driver
(`part_000`).  Go `uint64`/`uint32` values are modelled as `Nat`; casts that
can truncate are written with an explicit `% 2 ^ w`.  The cluster-map engine
(`qcow2_get_host_offset`, `qcow2_alloc_host_offset`), the raw-file adapter
and the metadata caches are not part of the analyzed sources; each call into
them is modelled as an oracle parameter (a function supplied to the embedded
driver function) whose successful results carry exactly the data the source
call returns through its out-parameters.
-/

namespace Qcow2

/-- Error values of the driver.  `Err_IncompleteParameters` and
`ERR_ENOTSUP` are the named errors of the source; `msg` stands for a
`fmt.Errorf` result and `io` for a passthrough error of the raw adapter. -/
inductive QErr where
  | enotsup
  | eagain
  | incompleteParameters
  | msg (s : String)
  | io (n : Nat)
deriving DecidableEq, Repr

/-- Subcluster classification returned by the cluster-map engine
(`QCow2SubclusterType` in the source; the seven values listed in the spec's
data model). -/
inductive QCow2SubclusterType where
  | UNALLOCATED_PLAIN
  | UNALLOCATED_ALLOC
  | ZERO_PLAIN
  | ZERO_ALLOC
  | NORMAL
  | COMPRESSED
  | INVALID
deriving DecidableEq, Repr

/-- Modelled from the spec: `round_up(x, n)` of the source rounds `x` up to
the next multiple of `n` (the helper itself is not under the analyzed
sources; the spec describes the rounding as a ceiling to the alignment). -/
def round_up (x n : Nat) : Nat := (x + n - 1) / n * n

/-- Modelled from the spec: `offset_into_subcluster(s, off)` is the offset of
`off` inside its subcluster, i.e. `off mod SubclusterSize` (helper not under
the analyzed sources; the spec describes subcluster alignment of the range
ends). -/
def offset_into_subcluster (subclusterSize off : Nat) : Nat :=
  off % subclusterSize

/-- Modelled from the spec: sector size used for the virtual-size rounding
and `TotalSectors` (512). -/
def DEFAULT_SECTOR_SIZE : Nat := 512

/-- Modelled from the spec: `BDRV_SECTOR_SIZE` (512). -/
def BDRV_SECTOR_SIZE : Nat := 512

/-- Modelled from the spec: `cluster_bits` is fixed to 16. -/
def DEFAULT_CLUSTER_BITS : Nat := 16

/-- Modelled from the spec: 64 KiB clusters. -/
def DEFAULT_CLUSTER_SIZE : Nat := 65536

/-- Modelled from the spec: `binary.BigEndian.Uint32(QCOW_MAGIC)` where the
magic is the ASCII bytes `QFI\xfb`. -/
def QCOW_MAGIC_BE : Nat := 0x514649FB

/-- qcow2 version constant of the source. -/
def QCOW2_VERSION2 : Nat := 2

/-- qcow2 version constant of the source. -/
def QCOW2_VERSION3 : Nat := 3

/-- Modelled from the spec: only `refcount_order = 4` is supported. -/
def QCOW2_REFCOUNT_ORDER : Nat := 4

/-- Modelled from the spec: only `crypt_method = 0` (no encryption). -/
def QCOW2_CRYPT_METHOD : Nat := 0

/-- Modelled from the spec: the extended-L2 incompatible-feature bit is
`1 <<< 4`. -/
def QCOW2_INCOMPAT_EXTL2 : Nat := 16

/-- Modelled from the spec: block-status flag (tri-flag format). -/
def BDRV_BLOCK_DATA : Nat := 1

/-- Modelled from the spec: block-status flag (tri-flag format). -/
def BDRV_BLOCK_ZERO : Nat := 2

/-- Modelled from the spec: block-status flag (tri-flag format). -/
def BDRV_BLOCK_OFFSET_VALID : Nat := 4

/-- `unsafe.Sizeof(QCowHeader{})` for the Go struct of `part_000`: the
fixed header fields plus the `CompressionType` byte and 7 padding bytes,
naturally aligned, give 112 bytes. -/
def SIZEOF_QCowHeader : Nat := 112

/-- Modelled from the spec: layout constant of the source (`L1_TABLE_OFFSET`
is not under the analyzed sources; the spec reserves cluster 0 for the
header and the L1 table, so the L1 table lives at a fixed offset inside
cluster 0; its exact value is irrelevant to every claim). -/
def L1_TABLE_OFFSET : Nat := 32768

/-- Modelled from the spec: layout constant of the source
(`REFCOUNT_TABLE_OFFSET`; the spec reserves clusters 1..2 for the refcount
table, so it starts at the first cluster boundary). -/
def REFCOUNT_TABLE_OFFSET : Nat := 65536

/-- Modelled from the spec: layout constant of the source
(`DEFAULT_REFCOUNT_TABLE_CLUSTERS`; the spec reserves two clusters for the
refcount table). -/
def DEFAULT_REFCOUNT_TABLE_CLUSTERS : Nat := 2

/-- Modelled from the spec: layout constant of the source
(`BACKING_FILE_OFFSET`; the backing-file name is written at a fixed offset
inside the reserved header cluster; its exact value is irrelevant to every
claim). -/
def BACKING_FILE_OFFSET : Nat := 1024

/-- The qcow2 header record of `part_000` (all integer fields as `Nat`). -/
structure QCowHeader where
  Magic : Nat
  Version : Nat
  BackingFileOffset : Nat
  BackingFileSize : Nat
  ClusterBits : Nat
  Size : Nat
  CryptMethod : Nat
  L1Size : Nat
  L1TableOffset : Nat
  RefcountTableOffset : Nat
  RefcountTableClusters : Nat
  NbSnapshots : Nat
  SnapshotsOffset : Nat
  IncompatibleFeatures : Nat
  CompatibleFeatures : Nat
  AutoclearFeatures : Nat
  RefcountOrder : Nat
  HeaderLength : Nat
  CompressionType : Nat
deriving DecidableEq, Repr

/-- `check_Header` of `qcow2.go` (lines 338-364): returns the first failing
check's error, or `none` when the header is accepted. -/
def check_Header (header : QCowHeader) : Option QErr :=
  if header.Magic ≠ QCOW_MAGIC_BE then
    some (.msg "no qcow2 format")
  else if header.Version ≠ QCOW2_VERSION2 ∧ header.Version ≠ QCOW2_VERSION3 then
    some (.msg "unsupport header version")
  else if header.ClusterBits ≠ DEFAULT_CLUSTER_BITS then
    some (.msg "no support for cluster size")
  else if header.RefcountOrder ≠ QCOW2_REFCOUNT_ORDER then
    some (.msg "no support for refcount order")
  else if header.CryptMethod ≠ QCOW2_CRYPT_METHOD then
    some (.msg "no support for cryption")
  else if header.HeaderLength > SIZEOF_QCowHeader then
    some (.msg "no support for extended qcow2 header")
  else
    none

/-- The property C5 asserts of accepted headers (claim side, for comparison
with `check_Header`). -/
def headerSupported (h : QCowHeader) : Prop :=
  h.Magic = QCOW_MAGIC_BE ∧ (h.Version = 2 ∨ h.Version = 3) ∧
  h.ClusterBits = 16 ∧ h.RefcountOrder = 4 ∧ h.CryptMethod = 0 ∧
  h.HeaderLength ≤ SIZEOF_QCowHeader

instance (h : QCowHeader) : Decidable (headerSupported h) := by
  unfold headerSupported; infer_instance

/-! ## `qcow2_create` (lines 60-194) -/

/-- Options map of `qcow2_create` / `qcow2_open`, restricted to the keys the
driver reads (`size`, `backing`, `subcluster`; `l2_cache_size` is passed to
`qcow2_open` separately). -/
structure CreateOpts where
  size : Option Nat
  backing : Option String
  subcluster : Option Bool
deriving DecidableEq, Repr

/-- File-touching steps of `qcow2_create`, in source order, recorded as an
event trace by the embedding. -/
inductive CreateEvent where
  | openChild
  | writeHeader
  | writeBackingName
  | writeRefcountTable
  | writeL1Table
  | allocClusters
deriving DecidableEq, Repr

/-- Results of the external calls `qcow2_create` makes (raw-file adapter and
allocator), supplied as an oracle environment: `none` means the call
succeeds. -/
structure CreateEnv where
  openChild : Option QErr
  writeHeader : Option QErr
  writeBackingName : Option QErr
  writeRefcountTable : Option QErr
  writeL1Table : Option QErr
  allocClusters : Option QErr
deriving DecidableEq, Repr

/-- Outcome of `qcow2_create`: the returned error (if any), the trace of
file-touching steps that were attempted, and the header struct the function
built (none when the early checks returned before building it). -/
structure CreateResult where
  err : Option QErr
  events : List CreateEvent
  header : Option QCowHeader
deriving DecidableEq, Repr

/-- Header construction of `qcow2_create` (lines 97-134): the size is rounded
up to the sector size, the L1 size is derived from the cluster-rounded size
(`>> (cluster_bits + cluster_bits - 3)` = `>>> 29`), and the subcluster and
backing options adjust the result. -/
def qcow2_create_header (size0 : Nat) (backingFile : String) (enableSc : Bool) :
    QCowHeader :=
  let size := round_up size0 DEFAULT_SECTOR_SIZE
  let size2 := round_up size DEFAULT_CLUSTER_SIZE
  let l1Size := round_up size2 (2 ^ 29) / 2 ^ 29
  let base : QCowHeader :=
    { Magic := QCOW_MAGIC_BE
      Version := QCOW2_VERSION3
      BackingFileOffset := 0
      BackingFileSize := 0
      ClusterBits := DEFAULT_CLUSTER_BITS
      Size := size
      CryptMethod := QCOW2_CRYPT_METHOD
      L1Size := l1Size
      L1TableOffset := L1_TABLE_OFFSET
      RefcountTableOffset := REFCOUNT_TABLE_OFFSET
      RefcountTableClusters := DEFAULT_REFCOUNT_TABLE_CLUSTERS
      NbSnapshots := 0
      SnapshotsOffset := 0
      IncompatibleFeatures := 0
      CompatibleFeatures := 0
      AutoclearFeatures := 0
      RefcountOrder := QCOW2_REFCOUNT_ORDER
      HeaderLength := SIZEOF_QCowHeader
      CompressionType := 0 }
  let base :=
    if enableSc then
      { base with
        IncompatibleFeatures := base.IncompatibleFeatures ||| QCOW2_INCOMPAT_EXTL2
        L1Size := base.L1Size * 2 }
    else base
  if backingFile ≠ "" then
    { base with
      BackingFileOffset := BACKING_FILE_OFFSET
      BackingFileSize := backingFile.length }
  else base

/-- `qcow2_create` (lines 60-194): parameter checks, then the sequence of
file-touching steps; each step consults the oracle environment and an error
aborts with the trace accumulated so far. -/
def qcow2_create (env : CreateEnv) (filename : String) (opts : CreateOpts) :
    CreateResult :=
  if filename = "" then
    { err := some .incompleteParameters, events := [], header := none }
  else
    match opts.size with
    | none => { err := some .incompleteParameters, events := [], header := none }
    | some size =>
      let backingFile := opts.backing.getD ""
      let enableSc := opts.subcluster.getD false
      match env.openChild with
      | some e => { err := some e, events := [.openChild], header := none }
      | none =>
        let header := qcow2_create_header size backingFile enableSc
        match env.writeHeader with
        | some e =>
          { err := some e, events := [.openChild, .writeHeader],
            header := some header }
        | none =>
          let ev0 := [CreateEvent.openChild, CreateEvent.writeHeader]
          let ev1 := if backingFile ≠ "" then ev0 ++ [.writeBackingName] else ev0
          if backingFile ≠ "" ∧ env.writeBackingName.isSome then
            { err := env.writeBackingName, events := ev1, header := some header }
          else
            match env.writeRefcountTable with
            | some e =>
              { err := some e, events := ev1 ++ [.writeRefcountTable],
                header := some header }
            | none =>
              match env.writeL1Table with
              | some e =>
                { err := some e,
                  events := ev1 ++ [.writeRefcountTable, .writeL1Table],
                  header := some header }
              | none =>
                match env.allocClusters with
                | some e =>
                  { err := some e,
                    events := ev1 ++
                      [.writeRefcountTable, .writeL1Table, .allocClusters],
                    header := some header }
                | none =>
                  { err := none,
                    events := ev1 ++
                      [.writeRefcountTable, .writeL1Table, .allocClusters],
                    header := some header }

/-! ## `qcow2_open` (lines 197-298) -/

/-- Results of the external calls `qcow2_open` makes, supplied as an oracle
environment. -/
structure OpenEnv where
  openChild : Option QErr
  readHeader : Except QErr QCowHeader
  readBackingFile : Except QErr String
  openBacking : Option QErr
  refcountInit : Option QErr
  readL1 : Option QErr

/-- The driver state `qcow2_open` returns, restricted to the fields the
claims observe (header, subcluster flag, and the two cache capacities
computed at lines 284-295). -/
structure OpenedState where
  header : QCowHeader
  enableSc : Bool
  l2CacheNum : Nat
  refcountCacheNum : Nat
deriving DecidableEq, Repr

/-- `qcow2_open` (lines 197-298).  The `l2CacheSizeOpt` argument is the
`l2_cache_size` entry of the options map (`none` when absent); the Go local
`l2CacheSize` defaults to `0` when the key is absent.  The cache page counts
follow lines 284-295: a positive `l2CacheSize` is rounded up to the cluster
size and divided by it (the result is stored in a `uint32`, hence the
`% 2 ^ 32`), otherwise `L1Size` is used; the refcount-cache count is
`max(l2CacehNum/2, 1)`. -/
def qcow2_open (env : OpenEnv) (filename : String) (l2CacheSizeOpt : Option Nat) :
    Except QErr OpenedState :=
  if filename = "" then .error .incompleteParameters
  else
    let l2CacheSize := l2CacheSizeOpt.getD 0
    match env.openChild with
    | some e => .error e
    | none =>
      match env.readHeader with
      | .error _ => .error (.msg "qcow2 file read fail")
      | .ok header =>
        match check_Header header with
        | some e => .error e
        | none =>
          let backingStep : Except QErr Unit :=
            if header.BackingFileOffset > 0 ∧ header.BackingFileSize > 0 then
              match env.readBackingFile with
              | .error _ => .error (.msg "can not read backing file")
              | .ok _ =>
                match env.openBacking with
                | some e => .error e
                | none => .ok ()
            else .ok ()
          match backingStep with
          | .error e => .error e
          | .ok _ =>
            let enableSc := header.IncompatibleFeatures &&& QCOW2_INCOMPAT_EXTL2 > 0
            match env.refcountInit with
            | some _ => .error (.msg "could not initialize refcount table")
            | none =>
              let l1Step : Except QErr Unit :=
                if header.L1Size > 0 then
                  match env.readL1 with
                  | some _ => .error (.msg "could not read L1 table")
                  | none => .ok ()
                else .ok ()
              match l1Step with
              | .error e => .error e
              | .ok _ =>
                let l2CacehNum :=
                  if l2CacheSize > 0 then
                    round_up l2CacheSize DEFAULT_CLUSTER_SIZE /
                      DEFAULT_CLUSTER_SIZE % 2 ^ 32
                  else header.L1Size
                let refcountCacheNum := max (l2CacehNum / 2) 1
                .ok { header := header, enableSc := decide enableSc,
                      l2CacheNum := l2CacehNum,
                      refcountCacheNum := refcountCacheNum }

/-! ## Read pipeline: `qcow2_preadv_part` / `qcow2_preadv_task`
(lines 366-401 and 524-547) -/

/-- Errors of the read/write pipeline embedding.  `panic` stands for a Go
`panic(...)` (the function does not return normally); `outOfFuel` is the
embedding's marker for exceeding the iteration bound of the driver loop
(the Go loop has no bound; every claim is conditioned on a normal result). -/
inductive RwErr where
  | panic
  | outOfFuel
  | io (e : QErr)
deriving DecidableEq, Repr

/-- `Qemu_Iovec_Memset(qiov, off, c, len)`: the iovec is modelled as a byte
map `Nat → Nat`; the region `[off, off+len)` is set to `c`. -/
def Qemu_Iovec_Memset (qiov : Nat → Nat) (off c len : Nat) : Nat → Nat :=
  fun i => if off ≤ i ∧ i < off + len then c else qiov i

/-- Modelled from the spec: a raw positional read (`bdrv_preadv_part` of the
out-of-scope raw adapter) copies `len` bytes of the source file content
`src` starting at `srcOff` into the iovec at `dst`. -/
def bdrv_preadv_part (qiov : Nat → Nat) (dst : Nat) (src : Nat → Nat)
    (srcOff len : Nat) : Nat → Nat :=
  fun i => if dst ≤ i ∧ i < dst + len then src (srcOff + (i - dst)) else qiov i

/-- `qcow2_preadv_task` (lines 524-547).  The switch: both `ZERO` types and
the default case panic; `COMPRESSED` does nothing and control falls through
to the trailing unconditional `panic("unexpected")`; `UNALLOCATED` reads
from `bs.backing` (a nil backing would be dereferenced — also a runtime
panic); `NORMAL` reads from the data file at the host offset.  Note the task
receives the caller's full remaining `bytes`, not the run length. -/
def qcow2_preadv_task (backing : Option (Nat → Nat)) (dataFile : Nat → Nat)
    (scType : QCow2SubclusterType) (hostOffset offset bytes : Nat)
    (qiov : Nat → Nat) (qiovOffset : Nat) : Except RwErr (Nat → Nat) :=
  match scType with
  | .ZERO_PLAIN => .error .panic
  | .ZERO_ALLOC => .error .panic
  | .UNALLOCATED_PLAIN =>
    match backing with
    | some b => .ok (bdrv_preadv_part qiov qiovOffset b offset bytes)
    | none => .error .panic
  | .UNALLOCATED_ALLOC =>
    match backing with
    | some b => .ok (bdrv_preadv_part qiov qiovOffset b offset bytes)
    | none => .error .panic
  | .COMPRESSED => .error .panic
  | .NORMAL => .ok (bdrv_preadv_part qiov qiovOffset dataFile hostOffset bytes)
  | .INVALID => .error .panic

/-- Environment of a read request: the cluster-map engine
(`qcow2_get_host_offset`, not under the analyzed sources) as an oracle
taking the guest offset and the `uint32`-clamped remaining byte count and
returning the run length, host offset and subcluster type; the optional
backing-image content; and the data-file content. -/
structure ReadCtx where
  oracle : Nat → Nat → Except QErr (Nat × Nat × QCow2SubclusterType)
  backing : Option (Nat → Nat)
  dataFile : Nat → Nat

/-- One iteration of the `qcow2_preadv_part` loop as observed by the claim:
the values of `offset`, `bytes`, `qiovOffset` at the start of the iteration
and the run `(curBytes, hostOffset, sctype)` the engine returned. -/
structure PreadRun where
  offset : Nat
  bytes : Nat
  qiovOffset : Nat
  curBytes : Nat
  hostOffset : Nat
  sctype : QCow2SubclusterType
deriving DecidableEq, Repr

/-- `qcow2_preadv_part` (lines 366-401).  `curBytes = uint32(bytes)` is the
truncating cast (`% 2 ^ 32`); the zero/unallocated-without-backing
dispatch memsets `curBytes` bytes, every other type goes through
`qcow2_preadv_task`; the loop then advances all three cursors by
`curBytes`.  Besides the final iovec content the embedding returns the
list of per-iteration records (one `PreadRun` per source-loop iteration)
so that per-run properties can be stated. -/
def qcow2_preadv_part (ctx : ReadCtx) :
    Nat → Nat → Nat → Nat → (Nat → Nat) →
    Except RwErr ((Nat → Nat) × List PreadRun)
  | 0, _, bytes, _, qiov =>
    if bytes = 0 then .ok (qiov, []) else .error .outOfFuel
  | fuel + 1, offset, bytes, qiovOffset, qiov =>
    if bytes = 0 then .ok (qiov, [])
    else
      match ctx.oracle offset (bytes % 2 ^ 32) with
      | .error e => .error (.io e)
      | .ok (curBytes, hostOffset, sctype) =>
        if sctype = .ZERO_PLAIN ∨ sctype = .ZERO_ALLOC ∨
           (sctype = .UNALLOCATED_PLAIN ∧ ctx.backing.isNone) ∨
           (sctype = .UNALLOCATED_ALLOC ∧ ctx.backing.isNone) then
          match qcow2_preadv_part ctx fuel (offset + curBytes)
              (bytes - curBytes) (qiovOffset + curBytes)
              (Qemu_Iovec_Memset qiov qiovOffset 0 curBytes) with
          | .error e => .error e
          | .ok (q, rs) =>
            .ok (q, ⟨offset, bytes, qiovOffset, curBytes, hostOffset, sctype⟩ :: rs)
        else
          match qcow2_preadv_task ctx.backing ctx.dataFile sctype hostOffset
              offset bytes qiov qiovOffset with
          | .error e => .error e
          | .ok q1 =>
            match qcow2_preadv_part ctx fuel (offset + curBytes)
                (bytes - curBytes) (qiovOffset + curBytes) q1 with
            | .error e => .error e
            | .ok (q, rs) =>
              .ok (q, ⟨offset, bytes, qiovOffset, curBytes, hostOffset, sctype⟩ :: rs)

/-- The successive-iteration relation of the `qcow2_preadv_part` loop: the
first recorded run starts at the request cursors, and each following run
starts exactly one run length after its predecessor (the advancement claim
of C1). -/
def preadvRunsChain : Nat → Nat → Nat → List PreadRun → Prop
  | _, _, _, [] => True
  | offset, bytes, qiovOffset, r :: rs =>
    r.offset = offset ∧ r.bytes = bytes ∧ r.qiovOffset = qiovOffset ∧
    preadvRunsChain (offset + r.curBytes) (bytes - r.curBytes)
      (qiovOffset + r.curBytes) rs

/-- The byte the claim C1 prescribes for position `i` of a run's iovec
region: zero for `ZERO` runs and for unallocated runs without a backing
image, the backing content at the same guest offset for unallocated runs
with backing, and the data-file content at the host offset for `NORMAL`
runs. -/
def preadRunSpec (ctx : ReadCtx) (r : PreadRun) (i : Nat) : Nat :=
  match r.sctype, ctx.backing with
  | .ZERO_PLAIN, _ => 0
  | .ZERO_ALLOC, _ => 0
  | .UNALLOCATED_PLAIN, none => 0
  | .UNALLOCATED_ALLOC, none => 0
  | .UNALLOCATED_PLAIN, some b => b (r.offset + i)
  | .UNALLOCATED_ALLOC, some b => b (r.offset + i)
  | .NORMAL, _ => ctx.dataFile (r.hostOffset + i)
  | .COMPRESSED, _ => 0
  | .INVALID, _ => 0

/-! ## Zero-write: `is_zero` (lines 665-690) and `qcow2_pwrite_zeroes`
(lines 449-493) -/

/-- The `for` loop of `is_zero`: `bdrv_block_status_above` (not under the
analyzed sources) is an oracle returning `(res, nr)` for `(offset, bytes)`.
The loop advances by `nr` and continues while the status is zero with
progress and bytes remain; on exit the result is
`err == nil && res&BDRV_BLOCK_ZERO > 0 && bytes == 0`.  Fuel exhaustion
(the Go loop is unbounded) conservatively yields `false`. -/
def is_zero_loop (statusOracle : Nat → Nat → Except QErr (Nat × Nat)) :
    Nat → Nat → Nat → Bool
  | 0, _, _ => false
  | fuel + 1, offset, bytes =>
    match statusOracle offset bytes with
    | .error _ => false
    | .ok (res, nr) =>
      let offset1 := offset + nr
      let bytes1 := bytes - nr
      if res &&& BDRV_BLOCK_ZERO > 0 ∧ nr > 0 ∧ bytes1 > 0 then
        is_zero_loop statusOracle fuel offset1 bytes1
      else
        decide (res &&& BDRV_BLOCK_ZERO > 0 ∧ bytes1 = 0)

/-- `is_zero` (lines 665-690): clamp the range to the image length, a
zero-length range reads as zero, otherwise run the block-status loop. -/
def is_zero (statusOracle : Nat → Nat → Except QErr (Nat × Nat))
    (fuel totalSectors offset bytes : Nat) : Bool :=
  let bytes :=
    if offset + bytes > totalSectors * BDRV_SECTOR_SIZE then
      totalSectors * BDRV_SECTOR_SIZE - offset
    else bytes
  if bytes = 0 then true
  else is_zero_loop statusOracle fuel offset bytes

/-- Environment of `qcow2_pwrite_zeroes`: the subcluster size and image
length of the open state, the block-status oracle (with its loop fuel) that
`is_zero` consults, and the cluster-map oracle `qcow2_get_host_offset`. -/
structure PwzEnv where
  subclusterSize : Nat
  totalSectors : Nat
  statusOracle : Nat → Nat → Except QErr (Nat × Nat)
  statusFuel : Nat
  hostOracle : Nat → Nat → Except QErr (Nat × Nat × QCow2SubclusterType)

/-- Outcome of `qcow2_pwrite_zeroes`: the returned error and the
`(offset, bytes)` range passed to `qcow2_subcluster_zeroize` (`none` when
the call returned without zeroizing anything). -/
structure PwzResult where
  err : Option QErr
  zeroized : Option (Nat × Nat)
deriving DecidableEq, Repr

/-- `qcow2_pwrite_zeroes` (lines 449-493).  `qcow2_subcluster_zeroize` is not
under the analyzed sources; modelled from the spec as marking the given
range's subclusters `ZERO` and succeeding — the embedding records the range
it is invoked with.  Note the unaligned branch overwrites `offset` with
`offset - head` and `bytes` with a single `SubclusterSize` before
zeroizing. -/
def qcow2_pwrite_zeroes (env : PwzEnv) (offset bytes : Nat) : PwzResult :=
  let head := offset_into_subcluster env.subclusterSize offset
  let tail0 := round_up (offset + bytes) env.subclusterSize - (offset + bytes)
  let tail :=
    if offset + bytes = env.totalSectors * BDRV_SECTOR_SIZE then 0 else tail0
  if head > 0 ∨ tail > 0 then
    if ¬(is_zero env.statusOracle env.statusFuel env.totalSectors
           (offset - head) head = true ∧
         is_zero env.statusOracle env.statusFuel env.totalSectors
           (offset + bytes) tail = true) then
      { err := some .enotsup, zeroized := none }
    else
      let offset1 := offset - head
      let bytes1 := env.subclusterSize
      match env.hostOracle offset1 env.subclusterSize with
      | .error e => { err := some e, zeroized := none }
      | .ok (_, _, sctype) =>
        if sctype ≠ .UNALLOCATED_PLAIN ∧ sctype ≠ .UNALLOCATED_ALLOC ∧
           sctype ≠ .ZERO_PLAIN ∧ sctype ≠ .ZERO_ALLOC then
          { err := none, zeroized := none }
        else
          { err := none, zeroized := some (offset1, bytes1) }
  else
    { err := none, zeroized := some (offset, bytes) }

/-! ## L2Meta handling: `qcow2_handle_l2meta` (lines 495-522),
`qcow2_pwritev_task` (lines 549-578), `qcow2_pwritev_part` (lines 403-447) -/

/-- The metadata-side state the write-path claims observe: the in-flight
list `s.ClusterAllocs` and, as history, which metas have been committed via
`qcow2_alloc_cluster_link_l2` and which aborted via
`qcow2_alloc_cluster_abort`.  Metas are identified by `Nat` ids; an `L2Meta`
chain is the list of ids linked by the `Next` pointers. -/
structure MetaState where
  inFlight : List Nat
  linked : List Nat
  aborted : List Nat
deriving DecidableEq, Repr

/-- `qcow2_handle_l2meta` (lines 495-522).  `linkRes` is the result of
`qcow2_alloc_cluster_link_l2` per meta (not under the analyzed sources;
`none` = success).  On a link error the loop exits via `goto out` with the
current meta still first in `*pl2meta` and still in flight; otherwise each
meta is linked or aborted, removed from the in-flight list and the loop
advances to `Next`.  Returns `(err, remaining chain, state)`. -/
def qcow2_handle_l2meta (linkRes : Nat → Option QErr) (linkL2 : Bool) :
    List Nat → MetaState → Option QErr × List Nat × MetaState
  | [], st => (none, [], st)
  | m :: rest, st =>
    if linkL2 then
      match linkRes m with
      | some e => (some e, m :: rest, st)
      | none =>
        qcow2_handle_l2meta linkRes true rest
          { st with inFlight := st.inFlight.erase m, linked := st.linked ++ [m] }
    else
      qcow2_handle_l2meta linkRes false rest
        { st with inFlight := st.inFlight.erase m, aborted := st.aborted ++ [m] }

/-- `qcow2_pwritev_task` (lines 549-578).  `cowErr` is the result of
`handle_alloc_space` (the COW-envelope zeroing), `ioErr` the result of the
data-file `bdrv_pwritev_part`, `mergedCow` the result of `merge_cow` (when
true the data-file write is skipped here).  On failure control reaches
`out_locked` and the whole chain is aborted; on success the chain is linked
and the fall-through `out_locked` call runs with `linkL2 = false` on
whatever chain remained. -/
def qcow2_pwritev_task (linkRes : Nat → Option QErr) (cowErr ioErr : Option QErr)
    (mergedCow : Bool) (chain : List Nat) (st : MetaState) :
    Option QErr × MetaState :=
  match cowErr with
  | some e =>
    let r := qcow2_handle_l2meta linkRes false chain st
    (some e, r.2.2)
  | none =>
    if ¬mergedCow ∧ ioErr.isSome then
      let r := qcow2_handle_l2meta linkRes false chain st
      (ioErr, r.2.2)
    else
      let r1 := qcow2_handle_l2meta linkRes true chain st
      let r2 := qcow2_handle_l2meta linkRes false r1.2.1 r1.2.2
      (r1.1, r2.2.2)

/-- Environment of a write request: `alloc` is `qcow2_alloc_host_offset`
(not under the analyzed sources) returning the run length, host offset and
the `L2Meta` chain it posted to the in-flight list, keyed by
`(offset, bytes)`; the remaining fields are the per-iteration results of the
task's external calls, keyed by the iteration's guest offset. -/
structure WriteEnv where
  alloc : Nat → Nat → Except QErr (Nat × Nat × List Nat)
  linkRes : Nat → Option QErr
  cowErr : Nat → Option QErr
  ioErr : Nat → Option QErr
  mergedCow : Nat → Bool

/-- `qcow2_pwritev_part` (lines 403-447).  Each iteration allocates (the
returned chain is appended to the in-flight list, as
`qcow2_alloc_host_offset` does), runs `qcow2_pwritev_task` (which consumes
the chain; the local `l2meta` is reset to nil), and on success advances by
`curBytes`.  An allocation error jumps to `out_locked`, a task error to
`fail_nometa`; when the loop completes, `out_locked` is reached with the
local `l2meta` equal to nil. -/
def qcow2_pwritev_part (env : WriteEnv) :
    Nat → Nat → Nat → MetaState → Option QErr × MetaState
  | 0, _, bytes, st =>
    if bytes = 0 then
      (none, (qcow2_handle_l2meta env.linkRes false [] st).2.2)
    else (some (.msg "fuel"), st)
  | fuel + 1, offset, bytes, st =>
    if bytes = 0 then
      (none, (qcow2_handle_l2meta env.linkRes false [] st).2.2)
    else
      match env.alloc offset bytes with
      | .error e =>
        (some e, (qcow2_handle_l2meta env.linkRes false [] st).2.2)
      | .ok (curBytes, _, chain) =>
        let st1 := { st with inFlight := st.inFlight ++ chain }
        let r :=
          qcow2_pwritev_task env.linkRes (env.cowErr offset) (env.ioErr offset)
            (env.mergedCow offset) chain st1
        match r.1 with
        | some e => (some e, r.2)
        | none =>
          qcow2_pwritev_part env fuel (offset + curBytes) (bytes - curBytes) r.2

/-! ## `qcow2_block_status` (lines 704-738) -/

/-- Out-parameters and return value of `qcow2_block_status`: the status
flags, `*pnum`, and `*tmap` / whether `*file` was stored (both are written
only in the offset-valid branch). -/
structure BlockStatusOut where
  status : Nat
  pnum : Nat
  tmap : Option Nat
  fileSet : Bool
deriving DecidableEq, Repr

/-- `qcow2_block_status` (lines 704-738): consult the cluster-map engine
with the `uint32`-clamped count, propagate its error, and classify the run
into the tri-flag format. -/
def qcow2_block_status
    (hostOracle : Nat → Nat → Except QErr (Nat × Nat × QCow2SubclusterType))
    (offset count : Nat) : Except QErr BlockStatusOut :=
  match hostOracle offset (count % 2 ^ 32) with
  | .error e => .error e
  | .ok (bytes, hostOffset, scType) =>
    let out0 : BlockStatusOut :=
      { status := 0, pnum := bytes, tmap := none, fileSet := false }
    let out1 :=
      if scType = .NORMAL ∨ scType = .ZERO_ALLOC ∨
         scType = .UNALLOCATED_ALLOC then
        { out0 with tmap := some hostOffset, fileSet := true,
                    status := out0.status ||| BDRV_BLOCK_OFFSET_VALID }
      else out0
    let out2 :=
      if scType = .ZERO_PLAIN ∨ scType = .ZERO_ALLOC then
        { out1 with status := out1.status ||| BDRV_BLOCK_ZERO }
      else if scType ≠ .UNALLOCATED_PLAIN ∧ scType ≠ .UNALLOCATED_ALLOC then
        { out1 with status := out1.status ||| BDRV_BLOCK_DATA }
      else out1
    .ok out2

/-! ## Shared concrete instances used by witnesses and counterexamples -/

/-- A create environment in which every external call succeeds. -/
def allOkCreateEnv : CreateEnv :=
  { openChild := none, writeHeader := none, writeBackingName := none,
    writeRefcountTable := none, writeL1Table := none, allocClusters := none }

/-- A well-formed sample header: a 1 MiB image, no backing file, no
subcluster feature, `L1Size = 5`. -/
def sampleHeader : QCowHeader :=
  { Magic := QCOW_MAGIC_BE, Version := 3, BackingFileOffset := 0,
    BackingFileSize := 0, ClusterBits := 16, Size := 1048576,
    CryptMethod := 0, L1Size := 5, L1TableOffset := L1_TABLE_OFFSET,
    RefcountTableOffset := REFCOUNT_TABLE_OFFSET, RefcountTableClusters := 2,
    NbSnapshots := 0, SnapshotsOffset := 0, IncompatibleFeatures := 0,
    CompatibleFeatures := 0, AutoclearFeatures := 0, RefcountOrder := 4,
    HeaderLength := 104, CompressionType := 0 }

/-- An open environment in which every external call succeeds and the header
read yields `sampleHeader`. -/
def allOkOpenEnv : OpenEnv :=
  { openChild := none, readHeader := .ok sampleHeader,
    readBackingFile := .ok "", openBacking := none,
    refcountInit := none, readL1 := none }

/-! ## C10: virtual size rounded up to the sector size on create -/

lemma qcow2_create_header_Size (s : Nat) (backingFile : String)
    (enableSc : Bool) :
    (qcow2_create_header s backingFile enableSc).Size =
      round_up s DEFAULT_SECTOR_SIZE := by
  simp only [qcow2_create_header]
  split <;> split <;> rfl

lemma qcow2_create_header_of_result (env : CreateEnv) (filename : String)
    (opts : CreateOpts) (s : Nat) (hd : QCowHeader)
    (hsize : opts.size = some s)
    (hh : (qcow2_create env filename opts).header = some hd) :
    hd = qcow2_create_header s (opts.backing.getD "")
      (opts.subcluster.getD false) := by
  unfold qcow2_create at hh
  by_cases hfn : filename = ""
  · simp [hfn] at hh
  · simp only [hfn, if_false, hsize] at hh
    cases env.openChild <;> simp_all <;>
      (repeat' split at hh) <;> simp_all

/-- C10: for every create with size option `s`, the `Size` field of the
header the function builds (and writes) is `s` rounded up to the next
multiple of 512: it is a multiple of 512, at least `s`, exceeds `s` by at
most 511, equals `s` when `s` is already a multiple of 512, and is the
least such multiple. -/
theorem C10_create_size_rounding (env : CreateEnv) (filename : String)
    (opts : CreateOpts) (s : Nat) (hd : QCowHeader)
    (hsize : opts.size = some s)
    (hh : (qcow2_create env filename opts).header = some hd) :
    hd.Size % DEFAULT_SECTOR_SIZE = 0 ∧ s ≤ hd.Size ∧ hd.Size - s ≤ 511 ∧
    (s % DEFAULT_SECTOR_SIZE = 0 → hd.Size = s) ∧
    ∀ m, DEFAULT_SECTOR_SIZE ∣ m → s ≤ m → hd.Size ≤ m := by
  have hhd := qcow2_create_header_of_result env filename opts s hd hsize hh
  have hS : hd.Size = round_up s DEFAULT_SECTOR_SIZE := by
    rw [hhd, qcow2_create_header_Size]
  rw [hS]
  unfold round_up DEFAULT_SECTOR_SIZE
  refine ⟨by omega, by omega, by omega, by omega, ?_⟩
  intro m hm hsm
  obtain ⟨k, rfl⟩ := hm
  omega

/-- Witness for C10 at a concrete create call (requested size 1000 is
recorded as 1024). -/
theorem C10_witness :
    ((qcow2_create allOkCreateEnv "f"
        { size := some 1000, backing := none, subcluster := none }).header.get
          (by decide)).Size % DEFAULT_SECTOR_SIZE = 0 ∧
    1000 ≤ ((qcow2_create allOkCreateEnv "f"
        { size := some 1000, backing := none, subcluster := none }).header.get
          (by decide)).Size := by
  have h := C10_create_size_rounding allOkCreateEnv "f"
    { size := some 1000, backing := none, subcluster := none } 1000
    (qcow2_create_header 1000 "" false) rfl rfl
  exact ⟨h.1, h.2.1⟩

/-! ## C6: `size` is required by create -/

/-- C6: a create call whose options lack `size` (or whose filename is empty)
returns `Err_IncompleteParameters` with an empty trace of file-touching
steps (nothing was opened or written, no header built); when `size` is
present (and the filename is non-empty, which the source checks first), the
call proceeds past the check: the first file-touching step, opening the
child file, is attempted. -/
theorem C6_create_requires_size (env : CreateEnv) (filename : String)
    (opts : CreateOpts) :
    ((opts.size = none ∨ filename = "") →
       qcow2_create env filename opts =
         { err := some .incompleteParameters, events := [], header := none }) ∧
    (∀ s, opts.size = some s → filename ≠ "" →
       (qcow2_create env filename opts).events.head? = some .openChild) := by
  constructor
  · rintro (hs | hf)
    · unfold qcow2_create
      split
      · rfl
      · rw [hs]
    · simp [qcow2_create, hf]
  · intro s hs hf
    unfold qcow2_create
    simp only [hf, if_false, hs]
    cases env.openChild <;> (simp; repeat' split) <;> simp_all

/-- Witness for C6: with `size` absent the call fails with
`IncompleteParameters` and an empty trace; with `size` present it reaches
the child open. -/
theorem C6_witness :
    qcow2_create allOkCreateEnv "f"
        { size := none, backing := none, subcluster := none } =
      { err := some .incompleteParameters, events := [], header := none } ∧
    (qcow2_create allOkCreateEnv "f"
        { size := some 1000, backing := none, subcluster := none }).events.head? =
      some .openChild :=
  ⟨(C6_create_requires_size allOkCreateEnv "f"
      { size := none, backing := none, subcluster := none }).1 (Or.inl rfl),
   (C6_create_requires_size allOkCreateEnv "f"
      { size := some 1000, backing := none, subcluster := none }).2 1000 rfl
      (by decide)⟩

/-! ## C5: header validation on open -/

lemma check_Header_none_iff (h : QCowHeader) :
    check_Header h = none ↔ headerSupported h := by
  unfold check_Header headerSupported QCOW_MAGIC_BE QCOW2_VERSION2
    QCOW2_VERSION3 DEFAULT_CLUSTER_BITS QCOW2_REFCOUNT_ORDER
    QCOW2_CRYPT_METHOD SIZEOF_QCowHeader
  split_ifs <;> (simp_all; try omega)

lemma qcow2_open_ok_check (env : OpenEnv) (filename : String)
    (opt : Option Nat) (st : OpenedState) (h : QCowHeader)
    (hh : env.readHeader = .ok h)
    (hok : qcow2_open env filename opt = .ok st) :
    check_Header h = none := by
  by_cases hfn : filename = ""
  · simp [qcow2_open, hfn] at hok
  · cases hc : check_Header h
    · rfl
    · cases hoc : env.openChild
      · simp [qcow2_open, hfn, hh, hoc, hc] at hok
      · simp [qcow2_open, hfn, hh, hoc] at hok

/-- C5: `qcow2_open` returns a state only for headers whose magic is the
big-endian `QFI\xfb` word, whose version is 2 or 3, with `cluster_bits =
16`, `refcount_order = 4`, `crypt_method = 0` and a header length of at
most the fixed header size; `check_Header` accepts exactly these headers,
and for any header violating one of the conditions the open returns an
error (no `BlockDriverState`). -/
theorem C5_open_header_validation (env : OpenEnv) (filename : String)
    (opt : Option Nat) (h : QCowHeader)
    (hh : env.readHeader = .ok h) :
    (check_Header h = none ↔ headerSupported h) ∧
    (∀ st, qcow2_open env filename opt = .ok st → headerSupported h) ∧
    (¬headerSupported h → ∀ st, qcow2_open env filename opt ≠ .ok st) := by
  refine ⟨check_Header_none_iff h, ?_, ?_⟩
  · intro st hok
    exact (check_Header_none_iff h).mp (qcow2_open_ok_check env filename opt st h hh hok)
  · intro hbad st hok
    exact hbad ((check_Header_none_iff h).mp
      (qcow2_open_ok_check env filename opt st h hh hok))

/-- Witness for C5: the sample environment's header is accepted, and a
header with a wrong magic is rejected by every open. -/
theorem C5_witness :
    (check_Header sampleHeader = none ↔ headerSupported sampleHeader) ∧
    (¬headerSupported { sampleHeader with Magic := 0 } →
      ∀ st, qcow2_open { allOkOpenEnv with
          readHeader := .ok { sampleHeader with Magic := 0 } } "f" none ≠ .ok st) :=
  ⟨(C5_open_header_validation allOkOpenEnv "f" none sampleHeader rfl).1,
   (C5_open_header_validation
      { allOkOpenEnv with readHeader := .ok { sampleHeader with Magic := 0 } }
      "f" none { sampleHeader with Magic := 0 } rfl).2.2⟩

/-! ## C7: cache capacities chosen at open -/

lemma qcow2_open_ok_state (env : OpenEnv) (filename : String) (opt : Option Nat)
    (st : OpenedState) (h : QCowHeader)
    (hh : env.readHeader = .ok h)
    (hok : qcow2_open env filename opt = .ok st) :
    st.l2CacheNum = (if 0 < opt.getD 0 then
        round_up (opt.getD 0) DEFAULT_CLUSTER_SIZE / DEFAULT_CLUSTER_SIZE % 2 ^ 32
      else h.L1Size) ∧
    st.refcountCacheNum = max (st.l2CacheNum / 2) 1 := by
  by_cases hfn : filename = ""
  · simp [qcow2_open, hfn] at hok
  · cases hoc : env.openChild
    · cases hc : check_Header h
      · simp only [qcow2_open, hfn, if_false, hh, hoc, hc] at hok
        repeat' split at hok
        all_goals first
          | (simp_all; done)
          | (injection hok with h2; subst h2; constructor <;> simp_all)
      · simp [qcow2_open, hfn, hh, hoc, hc] at hok
    · simp [qcow2_open, hfn, hh, hoc] at hok

/-- C7 counterexample: the claim predicts an L2 cache capacity of
`ceil(l2_cache_size / cluster_size)` pages whenever the option is supplied,
but supplying `l2_cache_size = 0` (a legal `u64` value) makes the open use
`l1_size` pages: with `l1_size = 5` the capacity is 5, not
`ceil(0/65536) = 0` (and the refcount cache is 2 pages, not
`max(0/2, 1) = 1`). -/
theorem C7_counterexample :
    qcow2_open allOkOpenEnv "f" (some 0) =
      .ok { header := sampleHeader, enableSc := false, l2CacheNum := 5,
            refcountCacheNum := 2 } ∧
    (5 : Nat) ≠ round_up 0 DEFAULT_CLUSTER_SIZE / DEFAULT_CLUSTER_SIZE := by
  exact ⟨rfl, by decide⟩

/-- C7 (amended): for every successful open, if `l2_cache_size` is supplied
with a nonzero value `v` the L2 cache capacity is
`round_up(v, cluster_size) / cluster_size` truncated to 32 bits — equal to
the ceiling of `v / cluster_size` whenever `v + cluster_size ≤ 2^48`; if
the option is
absent or zero the capacity is `l1_size` pages; in all cases the
refcount-block cache capacity is `max(l2_capacity / 2, 1)` pages. -/
theorem C7_open_cache_capacity (env : OpenEnv) (filename : String)
    (opt : Option Nat) (st : OpenedState) (h : QCowHeader)
    (hh : env.readHeader = .ok h)
    (hok : qcow2_open env filename opt = .ok st) :
    (∀ v, opt = some v → 0 < v →
       st.l2CacheNum =
         round_up v DEFAULT_CLUSTER_SIZE / DEFAULT_CLUSTER_SIZE % 2 ^ 32 ∧
       (v + DEFAULT_CLUSTER_SIZE ≤ 2 ^ 48 →
         st.l2CacheNum = (v + DEFAULT_CLUSTER_SIZE - 1) / DEFAULT_CLUSTER_SIZE)) ∧
    ((opt = none ∨ opt = some 0) → st.l2CacheNum = h.L1Size) ∧
    st.refcountCacheNum = max (st.l2CacheNum / 2) 1 := by
  obtain ⟨hl2, hrc⟩ := qcow2_open_ok_state env filename opt st h hh hok
  refine ⟨?_, ?_, hrc⟩
  · rintro v rfl hv
    simp only [Option.getD_some, hv, if_pos] at hl2
    refine ⟨hl2, ?_⟩
    intro hsmall
    have hs2 : v + 65536 ≤ 2 ^ 48 := by simpa [DEFAULT_CLUSTER_SIZE] using hsmall
    rw [hl2]
    unfold round_up DEFAULT_CLUSTER_SIZE
    have h1 : (v + 65536 - 1) / 65536 * 65536 / 65536 = (v + 65536 - 1) / 65536 :=
      Nat.mul_div_cancel _ (by norm_num)
    rw [h1]
    have h2 : (v + 65536 - 1) / 65536 < 2 ^ 32 := by omega
    exact Nat.mod_eq_of_lt h2
  · rintro (rfl | rfl) <;> simpa using hl2

/-- Witness for C7 at a concrete open: with `l2_cache_size = 70000` the L2
cache gets `ceil(70000/65536) = 2` pages and the refcount cache 1 page. -/
theorem C7_witness :
    ∃ st, qcow2_open allOkOpenEnv "f" (some 70000) = .ok st ∧
      st.l2CacheNum = 2 ∧ st.refcountCacheNum = max (st.l2CacheNum / 2) 1 := by
  refine ⟨_, rfl, ?_, ?_⟩
  · have h := C7_open_cache_capacity allOkOpenEnv "f" (some 70000) _
      sampleHeader rfl rfl
    have h2 := (h.1 70000 rfl (by decide)).2 (by decide)
    rw [h2]
    decide
  · exact (C7_open_cache_capacity allOkOpenEnv "f" (some 70000) _
      sampleHeader rfl rfl).2.2

/-! ## C4: block-status classification -/

/-- C4: for every successful `qcow2_block_status` query whose run has
subcluster type `t` (the engine reports `INVALID` entries as errors, so a
successful query's `t` is never `INVALID`): the `ZERO` flag is set iff `t`
is `ZERO_PLAIN` or `ZERO_ALLOC`; the `DATA` flag is set iff `t` is `NORMAL`
or `COMPRESSED`; unallocated runs carry neither; when the data resides in
the data file (`NORMAL`, `ZERO_ALLOC`, `UNALLOCATED_ALLOC`) the
`OFFSET_VALID` flag is set and the host offset and data-file handle are
stored through the out-parameters; and `*pnum` is the run length. -/
theorem C4_block_status_flags
    (hostOracle : Nat → Nat → Except QErr (Nat × Nat × QCow2SubclusterType))
    (offset count b hOff : Nat) (t : QCow2SubclusterType) (out : BlockStatusOut)
    (ho : hostOracle offset (count % 2 ^ 32) = .ok (b, hOff, t))
    (ht : t ≠ .INVALID)
    (hok : qcow2_block_status hostOracle offset count = .ok out) :
    ((out.status &&& BDRV_BLOCK_ZERO ≠ 0) ↔ (t = .ZERO_PLAIN ∨ t = .ZERO_ALLOC)) ∧
    ((out.status &&& BDRV_BLOCK_DATA ≠ 0) ↔ (t = .NORMAL ∨ t = .COMPRESSED)) ∧
    ((t = .UNALLOCATED_PLAIN ∨ t = .UNALLOCATED_ALLOC) →
       out.status &&& BDRV_BLOCK_ZERO = 0 ∧ out.status &&& BDRV_BLOCK_DATA = 0) ∧
    ((t = .NORMAL ∨ t = .ZERO_ALLOC ∨ t = .UNALLOCATED_ALLOC) →
       out.status &&& BDRV_BLOCK_OFFSET_VALID ≠ 0 ∧ out.tmap = some hOff ∧
       out.fileSet = true) ∧
    out.pnum = b := by
  unfold qcow2_block_status at hok
  rw [ho] at hok
  cases t
  case INVALID => exact absurd rfl ht
  all_goals simp at hok
  all_goals subst hok
  all_goals refine ⟨?_, ?_, fun hmem => ?_, fun hmem => ?_, rfl⟩
  all_goals first
    | exact absurd hmem (by decide)
    | (simp [BDRV_BLOCK_ZERO, BDRV_BLOCK_DATA, BDRV_BLOCK_OFFSET_VALID];
       all_goals decide)

/-- Witness for C4 at a concrete `NORMAL` run. -/
theorem C4_witness :
    ∃ out, qcow2_block_status (fun _ _ => .ok (4096, 123, .NORMAL)) 0 4096 =
        .ok out ∧
      out.status &&& BDRV_BLOCK_DATA ≠ 0 ∧ out.status &&& BDRV_BLOCK_ZERO = 0 ∧
      out.status &&& BDRV_BLOCK_OFFSET_VALID ≠ 0 ∧ out.tmap = some 123 ∧
      out.pnum = 4096 := by
  refine ⟨_, rfl, ?_⟩
  have h := C4_block_status_flags (fun _ _ => .ok (4096, 123, .NORMAL)) 0 4096
    4096 123 .NORMAL _ rfl (by decide) rfl
  refine ⟨h.2.1.mpr (Or.inl rfl), ?_, (h.2.2.2.1 (Or.inl rfl)).1,
    (h.2.2.2.1 (Or.inl rfl)).2.1, h.2.2.2.2⟩
  by_contra hz
  exact absurd (h.1.mp hz) (by decide)

/-! ## C8: compressed runs make the read task panic -/

/-- C8: `qcow2_preadv_task` on a `COMPRESSED` run performs no I/O and falls
through to the unconditional `panic("unexpected")`, for every input; and
`qcow2_preadv_part` dispatches a `COMPRESSED` run to the task (not to the
memset branch), so a read whose first run is compressed never completes
normally. -/
theorem C8_compressed_read_panics :
    (∀ (backing : Option (Nat → Nat)) (dataFile : Nat → Nat)
       (hostOffset offset bytes : Nat) (qiov : Nat → Nat) (qiovOffset : Nat),
       qcow2_preadv_task backing dataFile .COMPRESSED hostOffset offset bytes
         qiov qiovOffset = .error .panic) ∧
    (∀ (ctx : ReadCtx) (fuel offset bytes qiovOffset : Nat) (qiov : Nat → Nat)
       (curBytes hostOffset : Nat),
       bytes ≠ 0 →
       ctx.oracle offset (bytes % 2 ^ 32) = .ok (curBytes, hostOffset, .COMPRESSED) →
       qcow2_preadv_part ctx (fuel + 1) offset bytes qiovOffset qiov =
         .error .panic) := by
  constructor
  · intro backing dataFile hostOffset offset bytes qiov qiovOffset
    cases backing <;> rfl
  · intro ctx fuel offset bytes qiovOffset qiov curBytes hostOffset hb ho
    rw [qcow2_preadv_part]
    simp only [hb, if_false, ho]
    have htask : qcow2_preadv_task ctx.backing ctx.dataFile .COMPRESSED
        hostOffset offset bytes qiov qiovOffset = .error .panic := by
      cases ctx.backing <;> rfl
    simp [htask]

/-- Witness for C8: a concrete read request over a compressed run returns
the panic marker. -/
theorem C8_witness :
    qcow2_preadv_part
        { oracle := fun _ _ => .ok (8, 0, .COMPRESSED), backing := none,
          dataFile := fun _ => 0 } 1 0 8 0 (fun _ => 7) = .error .panic :=
  C8_compressed_read_panics.2
    { oracle := fun _ _ => .ok (8, 0, .COMPRESSED), backing := none,
      dataFile := fun _ => 0 } 0 0 8 0 (fun _ => 7) 8 0 (by decide) rfl

/-! ## C1: read dispatch and advancement -/

lemma qcow2_preadv_task_frame (backing : Option (Nat → Nat))
    (dataFile : Nat → Nat) (scType : QCow2SubclusterType)
    (hostOffset offset bytes : Nat) (qiov : Nat → Nat) (qiovOffset : Nat)
    (q1 : Nat → Nat)
    (h : qcow2_preadv_task backing dataFile scType hostOffset offset bytes qiov
        qiovOffset = .ok q1) :
    ∀ i, i < qiovOffset → q1 i = qiov i := by
  intro i hi
  have hni : ¬(qiovOffset ≤ i) := by omega
  unfold qcow2_preadv_task at h
  cases scType
  case ZERO_PLAIN => exact absurd h (by simp)
  case ZERO_ALLOC => exact absurd h (by simp)
  case COMPRESSED => exact absurd h (by simp)
  case INVALID => exact absurd h (by simp)
  case NORMAL =>
    rw [← Except.ok.inj h]
    simp [bdrv_preadv_part, hni]
  case UNALLOCATED_PLAIN =>
    cases backing with
    | none => exact absurd h (by simp)
    | some b =>
      rw [← Except.ok.inj h]
      simp [bdrv_preadv_part, hni]
  case UNALLOCATED_ALLOC =>
    cases backing with
    | none => exact absurd h (by simp)
    | some b =>
      rw [← Except.ok.inj h]
      simp [bdrv_preadv_part, hni]

lemma qcow2_preadv_part_frame (ctx : ReadCtx) :
    ∀ fuel offset bytes qiovOffset qiov q rs,
      qcow2_preadv_part ctx fuel offset bytes qiovOffset qiov = .ok (q, rs) →
      ∀ i, i < qiovOffset → q i = qiov i := by
  intro fuel
  induction fuel with
  | zero =>
    intro offset bytes qiovOffset qiov q rs hok i hi
    rw [qcow2_preadv_part] at hok
    split at hok
    · rw [← (Prod.mk.inj (Except.ok.inj hok)).1]
    · exact absurd hok (by simp)
  | succ fuel ih =>
    intro offset bytes qiovOffset qiov q rs hok i hi
    rw [qcow2_preadv_part] at hok
    split at hok
    · rw [← (Prod.mk.inj (Except.ok.inj hok)).1]
    · split at hok
      · exact absurd hok (by simp)
      · rename_i curBytes hostOffset sctype heq
        split at hok
        · split at hok
          · exact absurd hok (by simp)
          · rename_i q1 rs1 heq2
            rw [← (Prod.mk.inj (Except.ok.inj hok)).1]
            have hframe := ih _ _ _ _ _ _ heq2 i (by omega)
            rw [hframe]
            have hni : ¬(qiovOffset ≤ i) := by omega
            simp [Qemu_Iovec_Memset, hni]
        · split at hok
          · exact absurd hok (by simp)
          · rename_i q1 heq2
            split at hok
            · exact absurd hok (by simp)
            · rename_i q2 rs2 heq3
              rw [← (Prod.mk.inj (Except.ok.inj hok)).1]
              have hframe := ih _ _ _ _ _ _ heq3 i (by omega)
              rw [hframe]
              exact qcow2_preadv_task_frame ctx.backing ctx.dataFile sctype
                hostOffset offset bytes qiov qiovOffset q1 heq2 i hi

lemma qcow2_preadv_part_chain (ctx : ReadCtx) :
    ∀ fuel offset bytes qiovOffset qiov q rs,
      qcow2_preadv_part ctx fuel offset bytes qiovOffset qiov = .ok (q, rs) →
      preadvRunsChain offset bytes qiovOffset rs := by
  intro fuel
  induction fuel with
  | zero =>
    intro offset bytes qiovOffset qiov q rs hok
    rw [qcow2_preadv_part] at hok
    split at hok
    · rw [← (Prod.mk.inj (Except.ok.inj hok)).2]
      trivial
    · exact absurd hok (by simp)
  | succ fuel ih =>
    intro offset bytes qiovOffset qiov q rs hok
    rw [qcow2_preadv_part] at hok
    split at hok
    · rw [← (Prod.mk.inj (Except.ok.inj hok)).2]
      trivial
    · split at hok
      · exact absurd hok (by simp)
      · rename_i curBytes hostOffset sctype heq
        split at hok
        · split at hok
          · exact absurd hok (by simp)
          · rename_i q1 rs1 heq2
            rw [← (Prod.mk.inj (Except.ok.inj hok)).2]
            exact ⟨rfl, rfl, rfl, ih _ _ _ _ _ _ heq2⟩
        · split at hok
          · exact absurd hok (by simp)
          · rename_i q1 heq2
            split at hok
            · exact absurd hok (by simp)
            · rename_i q2 rs2 heq3
              rw [← (Prod.mk.inj (Except.ok.inj hok)).2]
              exact ⟨rfl, rfl, rfl, ih _ _ _ _ _ _ heq3⟩

lemma qcow2_preadv_part_content (ctx : ReadCtx)
    (hcontract : ∀ o c r, ctx.oracle o c = .ok r → r.1 ≤ c) :
    ∀ fuel offset bytes qiovOffset qiov q rs,
      qcow2_preadv_part ctx fuel offset bytes qiovOffset qiov = .ok (q, rs) →
      ∀ r ∈ rs, ∀ i, i < r.curBytes →
        q (r.qiovOffset + i) = preadRunSpec ctx r i := by
  intro fuel
  induction fuel with
  | zero =>
    intro offset bytes qiovOffset qiov q rs hok r hr i hi
    rw [qcow2_preadv_part] at hok
    split at hok
    · rw [← (Prod.mk.inj (Except.ok.inj hok)).2] at hr
      exact absurd hr (List.not_mem_nil r)
    · exact absurd hok (by simp)
  | succ fuel ih =>
    intro offset bytes qiovOffset qiov q rs hok r hr i hi
    rw [qcow2_preadv_part] at hok
    split at hok
    · rw [← (Prod.mk.inj (Except.ok.inj hok)).2] at hr
      exact absurd hr (List.not_mem_nil r)
    · rename_i hb
      split at hok
      · exact absurd hok (by simp)
      · rename_i curBytes hostOffset sctype heq
        have hcur : curBytes ≤ bytes :=
          le_trans (hcontract _ _ _ heq) (Nat.mod_le _ _)
        split at hok
        · rename_i hcond
          split at hok
          · exact absurd hok (by simp)
          · rename_i q1 rs1 heq2
            obtain ⟨hq, hrs⟩ := Prod.mk.inj (Except.ok.inj hok)
            rw [← hrs] at hr
            rcases List.mem_cons.mp hr with rfl | hr2
            · have hi2 : i < curBytes := hi
              rw [← hq]
              show q1 (qiovOffset + i) = preadRunSpec ctx
                ⟨offset, bytes, qiovOffset, curBytes, hostOffset, sctype⟩ i
              have hframe := qcow2_preadv_part_frame ctx fuel _ _ _ _ _ _ heq2
                (qiovOffset + i) (by omega)
              rw [hframe]
              have hrange : qiovOffset ≤ qiovOffset + i ∧
                  qiovOffset + i < qiovOffset + curBytes := by omega
              have hmem : Qemu_Iovec_Memset qiov qiovOffset 0 curBytes
                  (qiovOffset + i) = 0 := by
                simp [Qemu_Iovec_Memset, hrange]
              rw [hmem]
              rcases hcond with h1 | h1 | ⟨h1, h2⟩ | ⟨h1, h2⟩ <;> subst h1
              · simp [preadRunSpec]
              · simp [preadRunSpec]
              · rw [Option.isNone_iff_eq_none] at h2
                simp [preadRunSpec, h2]
              · rw [Option.isNone_iff_eq_none] at h2
                simp [preadRunSpec, h2]
            · rw [← hq]
              exact ih _ _ _ _ _ _ heq2 r hr2 i hi
        · rename_i hcond
          split at hok
          · exact absurd hok (by simp)
          · rename_i q1 heq2
            split at hok
            · exact absurd hok (by simp)
            · rename_i q2 rs2 heq3
              obtain ⟨hq, hrs⟩ := Prod.mk.inj (Except.ok.inj hok)
              rw [← hrs] at hr
              rcases List.mem_cons.mp hr with rfl | hr2
              · have hi2 : i < curBytes := hi
                rw [← hq]
                show q2 (qiovOffset + i) = preadRunSpec ctx
                  ⟨offset, bytes, qiovOffset, curBytes, hostOffset, sctype⟩ i
                have hframe := qcow2_preadv_part_frame ctx fuel _ _ _ _ _ _ heq3
                  (qiovOffset + i) (by omega)
                rw [hframe]
                have hin : qiovOffset ≤ qiovOffset + i ∧
                    qiovOffset + i < qiovOffset + bytes := by omega
                unfold qcow2_preadv_task at heq2
                cases sctype
                case ZERO_PLAIN => exact absurd (Or.inl rfl) hcond
                case ZERO_ALLOC => exact absurd (Or.inr (Or.inl rfl)) hcond
                case COMPRESSED => exact absurd heq2 (by simp)
                case INVALID => exact absurd heq2 (by simp)
                case NORMAL =>
                  rw [← Except.ok.inj heq2]
                  simp [bdrv_preadv_part, preadRunSpec, hin]
                case UNALLOCATED_PLAIN =>
                  cases hbk : ctx.backing with
                  | none =>
                    refine absurd (Or.inr (Or.inr (Or.inl ⟨rfl, ?_⟩))) hcond
                    simp [hbk]
                  | some b =>
                    rw [hbk] at heq2
                    rw [← Except.ok.inj heq2]
                    simp [bdrv_preadv_part, preadRunSpec, hin, hbk]
                case UNALLOCATED_ALLOC =>
                  cases hbk : ctx.backing with
                  | none =>
                    refine absurd (Or.inr (Or.inr (Or.inr ⟨rfl, ?_⟩))) hcond
                    simp [hbk]
                  | some b =>
                    rw [hbk] at heq2
                    rw [← Except.ok.inj heq2]
                    simp [bdrv_preadv_part, preadRunSpec, hin, hbk]
              · rw [← hq]
                exact ih _ _ _ _ _ _ heq3 r hr2 i hi

/-- C1: for every read request that `qcow2_preadv_part` completes normally,
and every contiguous run the cluster-map engine returned during it (the
engine never returns a run longer than the byte count it was asked about —
hypothesis `hcontract`): the loop advances `offset`, the remaining `bytes`
and `qiovOffset` by exactly the run's byte count between consecutive runs
(`preadvRunsChain`), and the final iovec holds, over each run's region, zero
bytes for `ZERO_PLAIN`/`ZERO_ALLOC` runs and for
`UNALLOCATED_PLAIN`/`UNALLOCATED_ALLOC` runs without a backing image, the
backing content at the same guest offset for unallocated runs with a
backing image, and the data-file content at the returned host offset for
`NORMAL` runs (`preadRunSpec`). -/
theorem C1_preadv_dispatch (ctx : ReadCtx) (fuel offset bytes qiovOffset : Nat)
    (qiov : Nat → Nat) (q : Nat → Nat) (rs : List PreadRun)
    (hcontract : ∀ o c r, ctx.oracle o c = .ok r → r.1 ≤ c)
    (hok : qcow2_preadv_part ctx fuel offset bytes qiovOffset qiov = .ok (q, rs)) :
    preadvRunsChain offset bytes qiovOffset rs ∧
    ∀ r ∈ rs, ∀ i, i < r.curBytes →
      q (r.qiovOffset + i) = preadRunSpec ctx r i :=
  ⟨qcow2_preadv_part_chain ctx fuel offset bytes qiovOffset qiov q rs hok,
   qcow2_preadv_part_content ctx hcontract fuel offset bytes qiovOffset qiov
     q rs hok⟩

/-- Witness for C1 at a concrete request: one `NORMAL` run of 3 bytes read
from host offset 777 of a data file whose byte at `j` is `j + 100`. -/
theorem C1_witness :
    ∃ q rs,
      qcow2_preadv_part
          { oracle := fun _ c => .ok (c, 777, .NORMAL), backing := none,
            dataFile := fun j => j + 100 } 1 0 3 0 (fun _ => 5) = .ok (q, rs) ∧
      preadvRunsChain 0 3 0 rs ∧
      ∀ r ∈ rs, ∀ i, i < r.curBytes →
        q (r.qiovOffset + i) =
          preadRunSpec
            { oracle := fun _ c => .ok (c, 777, .NORMAL), backing := none,
              dataFile := fun j => j + 100 } r i := by
  refine ⟨_, _, rfl, C1_preadv_dispatch _ 1 0 3 0 (fun _ => 5) _ _ ?_ rfl⟩
  intro o c r h
  cases h
  exact Nat.le.refl

/-! ## C2: unaligned zero-writes -/

/-- The head misalignment `qcow2_pwrite_zeroes` computes
(`offset_into_subcluster(s, offset)`). -/
def pwzHead (env : PwzEnv) (offset : Nat) : Nat :=
  offset_into_subcluster env.subclusterSize offset

/-- The tail misalignment `qcow2_pwrite_zeroes` computes, suppressed at the
image end. -/
def pwzTail (env : PwzEnv) (offset bytes : Nat) : Nat :=
  if offset + bytes = env.totalSectors * BDRV_SECTOR_SIZE then 0
  else round_up (offset + bytes) env.subclusterSize - (offset + bytes)

/-- A block-status oracle that reports every queried range as reading
zero in one step. -/
def pwzAllZeroStatus : Nat → Nat → Except QErr (Nat × Nat) :=
  fun _ b => .ok (BDRV_BLOCK_ZERO, b)

/-- Concrete environment for the C2 counterexample: a 1 MiB image
(`totalSectors = 2048`), 2 KiB subclusters, every range reads as zero, and
the queried subcluster is unallocated. -/
def pwzCexEnv : PwzEnv :=
  { subclusterSize := 2048, totalSectors := 2048,
    statusOracle := pwzAllZeroStatus, statusFuel := 4,
    hostOracle := fun _ n => .ok (n, 0, .UNALLOCATED_PLAIN) }

/-- C2 counterexample: `pwrite_zeroes(offset = 1024, bytes = 4096)` is
unaligned at both ends (head 1024, tail 1024) and both surroundings read as
zero, so the claim predicts the outward-rounded range `[0, 6144)` — three
subclusters — is marked `ZERO`.  The code instead calls
`qcow2_subcluster_zeroize` with `bytes` overwritten to a single
`SubclusterSize`, zeroizing only `[0, 2048)`. -/
theorem C2_counterexample :
    qcow2_pwrite_zeroes pwzCexEnv 1024 4096 =
      { err := none, zeroized := some (0, 2048) } ∧
    1024 - pwzHead pwzCexEnv 1024 = 0 ∧
    round_up (1024 + 4096) pwzCexEnv.subclusterSize = 6144 ∧
    some ((0 : Nat), (2048 : Nat)) ≠ some ((0 : Nat), (6144 : Nat)) := by
  refine ⟨by decide, by decide, by decide, by decide⟩

/-- C2 (amended): for every `pwrite_zeroes(offset, bytes)` whose range is
not subcluster-aligned at both ends (tail misalignment suppressed when
`offset + bytes` equals the image size): if the unaligned head and tail
surroundings do not both read as zero, the call returns `NotSupported` and
zeroizes nothing; if they do read as zero, the start is rounded down to a
subcluster boundary and exactly one subcluster (`SubclusterSize` bytes)
starting there is marked `ZERO` — provided the cluster-map engine reports
that subcluster unallocated or zero (a failing engine propagates its error,
and any other type returns success without zeroizing; the rest of the
requested range is not zeroized by this call). -/
theorem C2_pwrite_zeroes_unaligned (env : PwzEnv) (offset bytes : Nat)
    (hunal : 0 < pwzHead env offset ∨ 0 < pwzTail env offset bytes) :
    (¬(is_zero env.statusOracle env.statusFuel env.totalSectors
          (offset - pwzHead env offset) (pwzHead env offset) = true ∧
       is_zero env.statusOracle env.statusFuel env.totalSectors
          (offset + bytes) (pwzTail env offset bytes) = true) →
       qcow2_pwrite_zeroes env offset bytes =
         { err := some .enotsup, zeroized := none }) ∧
    (∀ b hOff t,
       is_zero env.statusOracle env.statusFuel env.totalSectors
          (offset - pwzHead env offset) (pwzHead env offset) = true →
       is_zero env.statusOracle env.statusFuel env.totalSectors
          (offset + bytes) (pwzTail env offset bytes) = true →
       env.hostOracle (offset - pwzHead env offset) env.subclusterSize =
         .ok (b, hOff, t) →
       (t = .UNALLOCATED_PLAIN ∨ t = .UNALLOCATED_ALLOC ∨ t = .ZERO_PLAIN ∨
        t = .ZERO_ALLOC) →
       qcow2_pwrite_zeroes env offset bytes =
         { err := none,
           zeroized := some (offset - pwzHead env offset, env.subclusterSize) }) := by
  simp only [pwzHead, pwzTail] at hunal
  constructor
  · intro hnz
    simp only [pwzHead, pwzTail] at hnz
    simp only [qcow2_pwrite_zeroes]
    rw [if_pos hunal, if_pos hnz]
  · intro b hOff t hz1 hz2 hho ht
    simp only [pwzHead, pwzTail] at hz1 hz2 hho ⊢
    simp only [qcow2_pwrite_zeroes]
    rw [if_pos hunal, if_neg (not_not_intro ⟨hz1, hz2⟩)]
    simp only [hho]
    rw [if_neg (by rcases ht with rfl | rfl | rfl | rfl <;> simp)]

/-- Witness for C2: the counterexample environment satisfies the amended
claim's zero-surroundings branch, zeroizing the single subcluster at the
rounded-down start. -/
theorem C2_witness :
    qcow2_pwrite_zeroes pwzCexEnv 1024 4096 =
      { err := none,
        zeroized := some (1024 - pwzHead pwzCexEnv 1024,
          pwzCexEnv.subclusterSize) } :=
  (C2_pwrite_zeroes_unaligned pwzCexEnv 1024 4096 (by decide)).2 2048 0
    .UNALLOCATED_PLAIN (by decide) (by decide) rfl (Or.inl rfl)

/-! ## C3 / C9: committing and aborting L2Meta chains -/

lemma qcow2_handle_l2meta_abort_all (linkRes : Nat → Option QErr) :
    ∀ (chain : List Nat) (st : MetaState),
      qcow2_handle_l2meta linkRes false chain st =
        (none, [],
         { inFlight := chain.foldl (fun l m => l.erase m) st.inFlight,
           linked := st.linked, aborted := st.aborted ++ chain }) := by
  intro chain
  induction chain with
  | nil => intro st; simp [qcow2_handle_l2meta]
  | cons m rest ih =>
    intro st
    rw [qcow2_handle_l2meta]
    simp [ih]

lemma qcow2_handle_l2meta_link_all (linkRes : Nat → Option QErr) :
    ∀ (chain : List Nat) (st : MetaState),
      (∀ m ∈ chain, linkRes m = none) →
      qcow2_handle_l2meta linkRes true chain st =
        (none, [],
         { inFlight := chain.foldl (fun l m => l.erase m) st.inFlight,
           linked := st.linked ++ chain, aborted := st.aborted }) := by
  intro chain
  induction chain with
  | nil => intro st _; simp [qcow2_handle_l2meta]
  | cons m rest ih =>
    intro st hall
    have hm : linkRes m = none := hall m (List.mem_cons_self m rest)
    rw [qcow2_handle_l2meta]
    simp [hm, ih _ (fun x hx => hall x (List.mem_cons_of_mem m hx))]

lemma qcow2_handle_l2meta_err_none (linkRes : Nat → Option QErr)
    (linkL2 : Bool) :
    ∀ (chain : List Nat) (st : MetaState),
      (qcow2_handle_l2meta linkRes linkL2 chain st).1 = none →
      (qcow2_handle_l2meta linkRes linkL2 chain st).2.1 = [] := by
  intro chain
  induction chain with
  | nil => intro st _; simp [qcow2_handle_l2meta]
  | cons m rest ih =>
    intro st herr
    rw [qcow2_handle_l2meta] at herr ⊢
    by_cases hl : linkL2
    · subst hl
      simp only [reduceIte] at herr ⊢
      cases hlr : linkRes m with
      | some e => rw [hlr] at herr; simp at herr
      | none =>
        rw [hlr] at herr
        exact ih _ herr
    · rw [Bool.not_eq_true] at hl
      subst hl
      simp only [Bool.false_eq_true, if_false] at herr ⊢
      exact ih _ herr

lemma qcow2_handle_l2meta_count_not_mem (linkRes : Nat → Option QErr)
    (linkL2 : Bool) (m : Nat) :
    ∀ (chain : List Nat) (st : MetaState), m ∉ chain →
      ((qcow2_handle_l2meta linkRes linkL2 chain st).2.2).inFlight.count m =
        st.inFlight.count m := by
  intro chain
  induction chain with
  | nil => intro st _; simp [qcow2_handle_l2meta]
  | cons a rest ih =>
    intro st hnm
    have ha : m ≠ a := fun h => hnm (h ▸ List.mem_cons_self a rest)
    have hrest : m ∉ rest := fun h => hnm (List.mem_cons_of_mem a h)
    rw [qcow2_handle_l2meta]
    by_cases hl : linkL2
    · subst hl
      simp only [reduceIte]
      cases hlr : linkRes a with
      | some e => rfl
      | none =>
        show ((qcow2_handle_l2meta linkRes true rest
            { inFlight := st.inFlight.erase a, linked := st.linked ++ [a],
              aborted := st.aborted }).2.2).inFlight.count m =
          st.inFlight.count m
        rw [ih _ hrest]
        simp [List.count_erase_of_ne ha]
    · rw [Bool.not_eq_true] at hl
      subst hl
      simp only [Bool.false_eq_true, if_false]
      rw [ih _ hrest]
      simp [List.count_erase_of_ne ha]

lemma qcow2_handle_l2meta_count_mem (linkRes : Nat → Option QErr)
    (linkL2 : Bool) (m : Nat) :
    ∀ (chain : List Nat) (st : MetaState), chain.Nodup → m ∈ chain →
      (qcow2_handle_l2meta linkRes linkL2 chain st).1 = none →
      ((qcow2_handle_l2meta linkRes linkL2 chain st).2.2).inFlight.count m =
        st.inFlight.count m - 1 := by
  intro chain
  induction chain with
  | nil => intro st _ hm; exact absurd hm (List.not_mem_nil m)
  | cons a rest ih =>
    intro st hnd hm herr
    obtain ⟨hna, hndr⟩ := List.nodup_cons.mp hnd
    rw [qcow2_handle_l2meta] at herr ⊢
    by_cases hl : linkL2
    · subst hl
      simp only [reduceIte] at herr ⊢
      cases hlr : linkRes a with
      | some e => rw [hlr] at herr; simp at herr
      | none =>
        rw [hlr] at herr
        show ((qcow2_handle_l2meta linkRes true rest
            { inFlight := st.inFlight.erase a, linked := st.linked ++ [a],
              aborted := st.aborted }).2.2).inFlight.count m =
          st.inFlight.count m - 1
        rcases List.mem_cons.mp hm with rfl | hmr
        · rw [qcow2_handle_l2meta_count_not_mem linkRes true m rest _ hna]
          simp [List.count_erase_self]
        · have hne : m ≠ a := fun h => hna (h ▸ hmr)
          rw [ih _ hndr hmr herr]
          simp [List.count_erase_of_ne hne]
    · rw [Bool.not_eq_true] at hl
      subst hl
      simp only [Bool.false_eq_true, if_false] at herr ⊢
      rcases List.mem_cons.mp hm with rfl | hmr
      · rw [qcow2_handle_l2meta_count_not_mem linkRes false m rest _ hna]
        simp [List.count_erase_self]
      · have hne : m ≠ a := fun h => hna (h ▸ hmr)
        rw [ih _ hndr hmr herr]
        simp [List.count_erase_of_ne hne]

lemma qcow2_pwritev_task_success (linkRes : Nat → Option QErr)
    (mergedCow : Bool) (ioErr : Option QErr) (chain : List Nat) (st : MetaState)
    (hall : ∀ m ∈ chain, linkRes m = none)
    (hio : mergedCow = true ∨ ioErr = none) :
    qcow2_pwritev_task linkRes none ioErr mergedCow chain st =
      (none,
       { inFlight := chain.foldl (fun l m => l.erase m) st.inFlight,
         linked := st.linked ++ chain, aborted := st.aborted }) := by
  have hcond : ¬(¬mergedCow = true ∧ ioErr.isSome = true) := by
    rcases hio with rfl | rfl <;> simp
  unfold qcow2_pwritev_task
  rw [if_neg hcond, qcow2_handle_l2meta_link_all linkRes chain st hall]
  simp [qcow2_handle_l2meta]

/-- C3 counterexample: with a two-element chain whose first link fails, the
data-file I/O of the task succeeds (`cowErr = none`, `ioErr = none`) yet no
element of the chain is committed: the link error sends the whole remaining
chain — both elements — through the abort path, so `linked = []`, both
metas are aborted, and the claim's "every L2Meta committed" is false. -/
theorem C3_counterexample :
    qcow2_pwritev_task (fun m => if m = 1 then some (.io 5) else none) none none
        false [1, 2] { inFlight := [1, 2], linked := [], aborted := [] } =
      (some (.io 5), { inFlight := [], linked := [], aborted := [1, 2] }) ∧
    ({ inFlight := [], linked := [], aborted := [1, 2] } : MetaState).linked ≠
      [1, 2] := by
  refine ⟨by decide, by decide⟩

/-- C3 (amended): for every write subrange processed by the task: when the
COW zeroing and the data-file I/O succeed and
`qcow2_alloc_cluster_link_l2` succeeds on every element, every L2Meta of
the chain is committed (appended to the linked history) and removed from
the in-flight list, with nothing aborted; when the COW zeroing fails, or
the data-file I/O fails (and the COW regions were not merged into the user
write), every L2Meta of the chain is instead aborted, removed from the
in-flight list, and the error is returned to the caller. -/
theorem C3_pwritev_task_l2meta (linkRes : Nat → Option QErr)
    (mergedCow : Bool) (chain : List Nat) (st : MetaState) :
    ((∀ m ∈ chain, linkRes m = none) → ∀ ioErr : Option QErr,
       (mergedCow = true ∨ ioErr = none) →
       qcow2_pwritev_task linkRes none ioErr mergedCow chain st =
         (none,
          { inFlight := chain.foldl (fun l m => l.erase m) st.inFlight,
            linked := st.linked ++ chain, aborted := st.aborted })) ∧
    (∀ e ioErr,
       qcow2_pwritev_task linkRes (some e) ioErr mergedCow chain st =
         (some e,
          { inFlight := chain.foldl (fun l m => l.erase m) st.inFlight,
            linked := st.linked, aborted := st.aborted ++ chain })) ∧
    (∀ e, qcow2_pwritev_task linkRes none (some e) false chain st =
       (some e,
        { inFlight := chain.foldl (fun l m => l.erase m) st.inFlight,
          linked := st.linked, aborted := st.aborted ++ chain })) := by
  refine ⟨?_, ?_, ?_⟩
  · intro hall ioErr hio
    exact qcow2_pwritev_task_success linkRes mergedCow ioErr chain st hall hio
  · intro e ioErr
    unfold qcow2_pwritev_task
    rw [qcow2_handle_l2meta_abort_all linkRes chain st]
  · intro e
    unfold qcow2_pwritev_task
    rw [if_pos (by simp), qcow2_handle_l2meta_abort_all linkRes chain st]

/-- Witness for C3: on a concrete two-element chain, full success links both
metas and empties the in-flight list; an I/O failure aborts both instead
and surfaces the error. -/
theorem C3_witness :
    qcow2_pwritev_task (fun _ => none) none none false [1, 2]
        { inFlight := [1, 2], linked := [], aborted := [] } =
      (none, { inFlight := [], linked := [1, 2], aborted := [] }) ∧
    qcow2_pwritev_task (fun _ => none) none (some (.io 7)) false [1, 2]
        { inFlight := [1, 2], linked := [], aborted := [] } =
      (some (.io 7), { inFlight := [], linked := [], aborted := [1, 2] }) := by
  constructor
  · rw [(C3_pwritev_task_l2meta (fun _ => none) false [1, 2]
      { inFlight := [1, 2], linked := [], aborted := [] }).1
      (fun _ _ => rfl) none (Or.inr rfl)]
    decide
  · rw [(C3_pwritev_task_l2meta (fun _ => none) false [1, 2]
      { inFlight := [1, 2], linked := [], aborted := [] }).2.2 (.io 7)]
    decide

lemma qcow2_pwritev_part_no_abort (env : WriteEnv)
    (hlink : ∀ m, env.linkRes m = none)
    (hcow : ∀ o, env.cowErr o = none)
    (hio : ∀ o, env.ioErr o = none) :
    ∀ fuel offset bytes st,
      ((qcow2_pwritev_part env fuel offset bytes st).2).aborted = st.aborted := by
  intro fuel
  induction fuel with
  | zero =>
    intro offset bytes st
    rw [qcow2_pwritev_part]
    split
    · simp [qcow2_handle_l2meta]
    · rfl
  | succ fuel ih =>
    intro offset bytes st
    rw [qcow2_pwritev_part]
    split
    · simp [qcow2_handle_l2meta]
    · cases halloc : env.alloc offset bytes with
      | error e => simp [qcow2_handle_l2meta]
      | ok res =>
        obtain ⟨curBytes, hOff, chain⟩ := res
        have h1 : qcow2_pwritev_task env.linkRes (env.cowErr offset)
            (env.ioErr offset) (env.mergedCow offset) chain
            { st with inFlight := st.inFlight ++ chain } =
            (none,
             { inFlight := chain.foldl (fun l m => l.erase m)
                 (st.inFlight ++ chain),
               linked := st.linked ++ chain, aborted := st.aborted }) := by
          rw [hcow offset]
          exact qcow2_pwritev_task_success env.linkRes (env.mergedCow offset)
            (env.ioErr offset) chain _ (fun m _ => hlink m)
            (Or.inr (hio offset))
        simp only [h1]
        rw [ih]

/-- C9: `qcow2_handle_l2meta` cleanup properties: (1) whenever the call
returns without error the remaining chain pointer `*pl2meta` is nil; (2) on
such a traversal each chain element is removed from the in-flight
`ClusterAllocs` list exactly once (its multiplicity drops by one); (3)
consequently the unconditional second `qcow2_handle_l2meta(..., false)`
call on the success path of `qcow2_pwritev_task` runs on a nil chain and
aborts nothing: the task's success result has the whole chain linked,
removed from the in-flight list, and an unchanged aborted history; and (4)
a fully successful `qcow2_pwritev_part` (allocation, COW, I/O and linking
all succeeding) reaches its `out_locked` call with a nil chain and never
aborts any L2Meta. -/
theorem C9_l2meta_success_cleanup :
    (∀ (linkRes : Nat → Option QErr) (linkL2 : Bool) (chain : List Nat)
       (st : MetaState),
       (qcow2_handle_l2meta linkRes linkL2 chain st).1 = none →
       (qcow2_handle_l2meta linkRes linkL2 chain st).2.1 = []) ∧
    (∀ (linkRes : Nat → Option QErr) (linkL2 : Bool) (m : Nat)
       (chain : List Nat) (st : MetaState), chain.Nodup → m ∈ chain →
       (qcow2_handle_l2meta linkRes linkL2 chain st).1 = none →
       ((qcow2_handle_l2meta linkRes linkL2 chain st).2.2).inFlight.count m =
         st.inFlight.count m - 1) ∧
    (∀ (linkRes : Nat → Option QErr) (mergedCow : Bool) (chain : List Nat)
       (st : MetaState), (∀ m ∈ chain, linkRes m = none) →
       qcow2_pwritev_task linkRes none none mergedCow chain st =
         (none,
          { inFlight := chain.foldl (fun l m => l.erase m) st.inFlight,
            linked := st.linked ++ chain, aborted := st.aborted })) ∧
    (∀ (env : WriteEnv) (fuel offset bytes : Nat) (st : MetaState),
       (∀ m, env.linkRes m = none) → (∀ o, env.cowErr o = none) →
       (∀ o, env.ioErr o = none) →
       ((qcow2_pwritev_part env fuel offset bytes st).2).aborted =
         st.aborted) := by
  refine ⟨?_, ?_, ?_, ?_⟩
  · intro linkRes linkL2 chain st
    exact qcow2_handle_l2meta_err_none linkRes linkL2 chain st
  · intro linkRes linkL2 m chain st
    exact qcow2_handle_l2meta_count_mem linkRes linkL2 m chain st
  · intro linkRes mergedCow chain st hall
    exact qcow2_pwritev_task_success linkRes mergedCow none chain st hall
      (Or.inr rfl)
  · intro env fuel offset bytes st hlink hcow hio
    exact qcow2_pwritev_part_no_abort env hlink hcow hio fuel offset bytes st

/-- Witness for C9 on concrete chains: a successful two-element traversal
leaves a nil chain and removes element 1 exactly once; a successful task
aborts nothing; a two-iteration successful write loop aborts nothing. -/
theorem C9_witness :
    (qcow2_handle_l2meta (fun _ => none) true [1, 2]
        { inFlight := [1, 2], linked := [], aborted := [] }).2.1 = [] ∧
    ((qcow2_handle_l2meta (fun _ => none) true [1, 2]
        { inFlight := [1, 2], linked := [], aborted := [] }).2.2).inFlight.count 1 =
      ([1, 2] : List Nat).count 1 - 1 ∧
    ((qcow2_pwritev_task (fun _ => none) none none false [3]
        { inFlight := [3], linked := [], aborted := [] }).2).aborted = [] ∧
    ((qcow2_pwritev_part
        { alloc := fun _ b => .ok (b, 0, [5]), linkRes := fun _ => none,
          cowErr := fun _ => none, ioErr := fun _ => none,
          mergedCow := fun _ => false } 2 0 100
        { inFlight := [], linked := [], aborted := [] }).2).aborted = [] := by
  refine ⟨C9_l2meta_success_cleanup.1 _ true [1, 2] _ (by decide),
    C9_l2meta_success_cleanup.2.1 _ true 1 [1, 2] _ (by decide) (by decide)
      (by decide), ?_, ?_⟩
  · rw [C9_l2meta_success_cleanup.2.2.1 (fun _ => none) false [3]
      { inFlight := [3], linked := [], aborted := [] } (fun _ _ => rfl)]
  · exact C9_l2meta_success_cleanup.2.2.2
      { alloc := fun _ b => .ok (b, 0, [5]), linkRes := fun _ => none,
        cowErr := fun _ => none, ioErr := fun _ => none,
        mergedCow := fun _ => false } 2 0 100
      { inFlight := [], linked := [], aborted := [] } (fun _ => rfl)
      (fun _ => rfl) (fun _ => rfl)

end Qcow2
